import Mathlib

/-!
Shallow embedding of the govip VIP lifecycle controller (src/main.go).

The program is a single Go file that:
  * parses a VIP in CIDR form and an interface name (globals `vip`, `vif`),
  * implements `hasIP` / `releaseIP` / `ensureIP` over netlink,
  * runs a leadership goroutine that campaigns in an etcd election and
    reconciles the address on each win, deferring `releaseIP` when it
    freshly added the address,
  * runs a signal-handler goroutine that, on the first SIGINT/SIGTERM,
    cancels the campaign context and closes the `quit` channel, and
  * exits with the code sent on the `exit` channel by the goroutine's
    deferred `exit <- 0`.

Netlink calls are modelled as functions over an explicit OS state
(`OsState`): a table of links with their address lists, plus failure
flags standing for the underlying syscalls failing.  Read operations
thread the state through unchanged; `AddrAdd` / `AddrDel` mutate it.
Gratuitous-ARP transmission is modelled by an outcome oracle whose
result is recorded in a trace but — as in the Go code, which discards
the return value of `arping.GratuitousArpOverIfaceByName` — never
inspected.  Time is modelled as a natural-number clock in seconds.
-/

namespace Govip

deriving instance DecidableEq for Except

/-- An IPv4 address in CIDR form, as produced by `netlink.ParseAddr`:
the (unmasked) IP together with the mask length.  `netlink.Addr.Equal`
compares IP and mask, which for this representation is structural
equality. -/
structure Addr where
  ip0 : Nat
  ip1 : Nat
  ip2 : Nat
  ip3 : Nat
  maskLen : Nat
deriving DecidableEq, Repr

/-- Split a character list at every occurrence of the separator, like
`String.splitOn` with a one-character separator. -/
def splitOnChar (c : Char) : List Char → List (List Char)
  | [] => [[]]
  | x :: xs =>
    match splitOnChar c xs with
    | [] => if x = c then [[], []] else [[x]]
    | r :: rs => if x = c then [] :: r :: rs else (x :: r) :: rs

/-- Value of a digit string, most significant digit first. -/
def digitsVal (cs : List Char) : Nat :=
  cs.foldl (fun n c => n * 10 + (c.toNat - 48)) 0

/-- Parse a nonempty all-digit field. -/
def parseDecimal (cs : List Char) : Option Nat :=
  if cs ≠ [] ∧ cs.all Char.isDigit then some (digitsVal cs) else none

/-- Parse one dotted-quad octet: decimal digits only, value at most 255. -/
def parseOctet (cs : List Char) : Option Nat :=
  match parseDecimal cs with
  | some n => if n ≤ 255 then some n else none
  | none => none

/-- Parse a dotted-quad IPv4 address `a.b.c.d`. -/
def parseIPv4 (cs : List Char) : Option (Nat × Nat × Nat × Nat) :=
  match splitOnChar '.' cs with
  | [a, b, c, d] =>
    match parseOctet a, parseOctet b, parseOctet c, parseOctet d with
    | some x, some y, some z, some w => some (x, y, z, w)
    | _, _, _, _ => none
  | _ => none

/-- Model of `netlink.ParseAddr`: requires the slash-separated CIDR
form (backed by `net.ParseCIDR` in Go); fails on anything else. -/
def parseAddr (s : String) : Option Addr :=
  match splitOnChar '/' s.data with
  | [ipPart, lenPart] =>
    match parseIPv4 ipPart, parseDecimal lenPart with
    | some (a, b, c, d), some n =>
      if n ≤ 32 then some ⟨a, b, c, d, n⟩ else none
    | _, _ => none
  | _ => none

/-- Error categories for the modelled netlink layer.  The Go code
propagates the library's `error` values without inspecting them; only which call failed
matters to the control flow. -/
inductive NetErr where
  | parseErr
  | linkNotFound
  | listErr
  | addErr
  | delErr
deriving DecidableEq, Repr

/-- A network link handle, identified by interface name (the model of
`netlink.Link` as far as this program uses it). -/
structure Link where
  name : String
deriving DecidableEq, Repr

/-- The OS network-configuration state visible to the program: each
link's current address list, plus failure flags modelling the
underlying `AddrList` / `AddrAdd` / `AddrDel` syscalls failing. -/
structure OsState where
  links : List (String × List Addr)
  listFail : Bool
  addFail : Bool
  delFail : Bool
deriving DecidableEq, Repr

/-- Model of `netlink.LinkByName`: resolve an interface name to a link
handle, failing when no such interface exists. -/
def linkByName (st : OsState) (name : String) : Option Link :=
  if st.links.any (fun p => p.1 = name) then some ⟨name⟩ else none

/-- The current address list of a link in a given state. -/
def linkAddrs (st : OsState) (l : Link) : List Addr :=
  match st.links.find? (fun p => p.1 = l.name) with
  | some p => p.2
  | none => []

/-- Model of `netlink.AddrList`: enumerate a link's addresses, reading
the state without changing it; fails when the enumeration syscall
fails. -/
def addrList (st : OsState) (l : Link) : Except NetErr (List Addr × OsState) :=
  if st.listFail then .error .listErr else .ok (linkAddrs st l, st)

/-- Replace a link's address list, leaving every other link and all
failure flags untouched. -/
def setLinkAddrs (st : OsState) (l : Link) (as : List Addr) : OsState :=
  { st with links := st.links.map (fun p => if p.1 = l.name then (p.1, as) else p) }

/-- Model of `netlink.AddrAdd`: add the address to the link, failing
when the underlying syscall fails. -/
def addrAdd (st : OsState) (l : Link) (a : Addr) : Except NetErr OsState :=
  if st.addFail then .error .addErr
  else .ok (setLinkAddrs st l (a :: linkAddrs st l))

/-- Model of `netlink.AddrDel`: remove the address from the link,
failing when the underlying syscall fails. -/
def addrDel (st : OsState) (l : Link) (a : Addr) : Except NetErr OsState :=
  if st.delFail then .error .delErr
  else .ok (setLinkAddrs st l ((linkAddrs st l).filter (fun x => x ≠ a)))

/-- The program's immutable configuration: the `-vip` and `-vif` flags
(the only ones the IP state manager reads). -/
structure Config where
  vip : String
  vif : String

/-- Embedding of `hasIP` (src/main.go lines 48–68): parse the VIP,
resolve the interface, enumerate its addresses, and report whether some
listed address equals the parsed one.  Returns the presence bit, the
resolved address and link handles, and the (unchanged) OS state. -/
def hasIP (cfg : Config) (st : OsState) : Except NetErr (Bool × Addr × Link × OsState) :=
  match parseAddr cfg.vip with
  | none => .error .parseErr
  | some vaddr =>
    match linkByName st cfg.vif with
    | none => .error .linkNotFound
    | some vlink =>
      match addrList st vlink with
      | .error e => .error e
      | .ok (addrs, st1) =>
        if addrs.any (fun addr => vaddr = addr) then .ok (true, vaddr, vlink, st1)
        else .ok (false, vaddr, vlink, st1)

/-- Embedding of `releaseIP` (src/main.go lines 70–85): observe, and if
the address is present delete it.  The returned `Bool` records the
observable outcome — `true` for the "IP address released" path (a
deletion happened), `false` for the "IP address not found" no-op
path. -/
def releaseIP (cfg : Config) (st : OsState) : Except NetErr (Bool × OsState) :=
  match hasIP cfg st with
  | .error e => .error e
  | .ok (set, vaddr, vlink, st1) =>
    if !set then .ok (false, st1)
    else
      match addrDel st1 vlink vaddr with
      | .error e => .error e
      | .ok st2 => .ok (true, st2)

/-- One gratuitous-ARP transmission record: the second it was sent and
whether the send succeeded.  The Go code discards the success bit. -/
structure ArpSend where
  time : Nat
  ok : Bool
deriving DecidableEq, Repr

/-- Embedding of `ensureIP` (src/main.go lines 87–107): observe, and if
the address is absent add it and then send five gratuitous ARPs one
second apart (send, then `time.Sleep(1 * time.Second)`), discarding
each send's outcome.  Returns the `newly added` bit, the list of ARP
transmissions performed, and the resulting OS state.  `arpOk` is the
oracle for the i-th transmission's outcome and `t` the clock at the
call. -/
def ensureIP (cfg : Config) (arpOk : Nat → Bool) (t : Nat) (st : OsState) :
    Except NetErr (Bool × List ArpSend × OsState) :=
  match hasIP cfg st with
  | .error e => .error e
  | .ok (set, vaddr, vlink, st1) =>
    if set then .ok (false, [], st1)
    else
      match addrAdd st1 vlink vaddr with
      | .error e => .error e
      | .ok st2 => .ok (true, (List.range 5).map (fun i => ⟨t + i, arpOk i⟩), st2)

/-- Outcome of one `e.Campaign(ctx, *member)` call, as the leadership
goroutine distinguishes them: `won` (nil error), `canceled`
(`err == context.Canceled`), or `failed` (any other error). -/
inductive CampaignRes where
  | won
  | canceled
  | failed
deriving DecidableEq, Repr

/-- One resolution of the goroutine's `select`: either the 5-second
timer fired and the subsequent campaign resolved as recorded, or the
`quit` channel became readable (it was closed by the signal
handler). -/
inductive LoopEv where
  | timerTick (c : CampaignRes)
  | quitClosed
deriving DecidableEq, Repr

/-- Result of running the leadership goroutine's loop on a finite event
script.

* `running`: the script is exhausted and the loop is still going;
  `defers` is the number of `defer releaseIP()` obligations currently
  pending and `acquired` whether some `ensureIP` call freshly added
  the address.
* `done fatal releaseCalls exitVal st acquired`: the goroutine ended.
  On a plain `return` (`fatal = false`) every pending deferred
  `releaseIP()` ran (LIFO, `releaseCalls` of them, errors discarded)
  and then the outermost defer sent `0` on the `exit` channel
  (`exitVal = some 0`).  On `log.Fatal` (`fatal = true`) the process
  died instantly: no defer ran, so `releaseCalls = 0` and
  `exitVal = none`. -/
inductive LoopOutcome where
  | running (st : OsState) (defers : Nat) (acquired : Bool)
  | done (fatal : Bool) (releaseCalls : Nat) (exitVal : Option Nat) (st : OsState) (acquired : Bool)
deriving DecidableEq, Repr

/-- Run the pending deferred `releaseIP()` calls: `n` calls, each with
its error discarded (a failing call leaves the state unchanged).
Returns the number of calls made together with the final state. -/
def runDefers (cfg : Config) (st : OsState) : Nat → Nat × OsState
  | 0 => (0, st)
  | n + 1 =>
    let st1 := match releaseIP cfg st with
      | .ok (_, s) => s
      | .error _ => st
    let (c, st2) := runDefers cfg st1 n
    (c + 1, st2)

/-- Embedding of the leadership goroutine's `for`/`select` loop
(src/main.go lines 150–173), driven by a finite script of `select`
resolutions.  On `timerTick won` it runs `ensureIP`; a fresh add pushes
one `defer releaseIP()` and marks the address acquired.  On
`timerTick canceled` or `quitClosed` it returns, firing the deferred
releases and the `exit <- 0` defer.  On `timerTick failed` or an
`ensureIP` error it calls `log.Fatal`, which kills the process with no
defer running.  `t` is the clock, advanced 5 seconds per timer tick
plus 5 seconds for the ARP loop of a fresh add. -/
def loopRun (cfg : Config) (arpOk : Nat → Bool) : Nat → OsState → Nat → Bool →
    List LoopEv → LoopOutcome
  | _, st, defers, acquired, [] => .running st defers acquired
  | t, st, defers, acquired, ev :: rest =>
    match ev with
    | .quitClosed =>
      let (c, st') := runDefers cfg st defers
      .done false c (some 0) st' acquired
    | .timerTick .canceled =>
      let (c, st') := runDefers cfg st defers
      .done false c (some 0) st' acquired
    | .timerTick .failed => .done true 0 none st acquired
    | .timerTick .won =>
      match ensureIP cfg arpOk (t + 5) st with
      | .error _ => .done true 0 none st acquired
      | .ok (res, _, st') =>
        if res then loopRun cfg arpOk (t + 10) st' (defers + 1) true rest
        else loopRun cfg arpOk (t + 5) st' defers acquired rest

/-- State of the signal-handler goroutine (src/main.go lines 181–189):
how many times `cancel()` and `close(quit)` have been called, and
whether the handler goroutine has already returned. -/
structure ShutdownState where
  cancelCalls : Nat
  quitCloses : Nat
  handlerDone : Bool
deriving DecidableEq, Repr

/-- Deliver one termination signal: if the handler goroutine is still
running it calls `cancel()`, calls `close(quit)` and returns; after it
has returned, a delivered signal sits in the channel buffer and has no
effect. -/
def handleSignal (s : ShutdownState) : ShutdownState :=
  if s.handlerDone then s
  else { cancelCalls := s.cancelCalls + 1, quitCloses := s.quitCloses + 1, handlerDone := true }

/-- Deliver `n` termination signals in sequence, starting from the
initial state (no cancellation yet, handler goroutine running). -/
def handleSignals : Nat → ShutdownState
  | 0 => ⟨0, 0, false⟩
  | n + 1 => handleSignal (handleSignals n)

/-- The exit path of `main` (src/main.go lines 190–194): block on
`code := <-exit`, then `os.Exit(code)`.  If the goroutine died via
`log.Fatal` nothing is ever sent and the clean-exit path is never
reached; if the script is exhausted `main` is still blocked. -/
def mainExitCode : LoopOutcome → Option Nat
  | .done _ _ (some v) _ _ => some v
  | _ => none

/-- Startup events of `main` in order (src/main.go lines 109–148):
the version print, the fire-and-forget `releaseIP()`, the TLS client
config, the `client.New` connection to etcd, and the goroutine's
`concurrency.NewSession`. -/
inductive MainEv where
  | evVersionPrint
  | evReleaseAttempt
  | evTlsSetup
  | evClientConnect
  | evSessionOpen
deriving DecidableEq, Repr

/-- How the startup phase ends: immediate return after `-version`,
death by `log.Fatal` before the election loop, or entry into the
leadership loop with the OS state left by the startup release. -/
inductive StartResult where
  | versionExit
  | fatalStartup
  | enterLoop (st : OsState)
deriving DecidableEq, Repr

/-- Embedding of `main` up to the election loop (src/main.go lines
109–148): print-and-exit on `-version`; otherwise call `releaseIP()`
discarding its result, build the TLS config (`tlsOk`), connect the
etcd client (`clientOk`), and open the concurrency session inside the
goroutine (`sessionOk`); `log.Fatal` on any of those three failing.
Returns the ordered event trace and how startup ended. -/
def mainStartup (versionFlag : Bool) (tlsOk clientOk sessionOk : Bool)
    (cfg : Config) (st : OsState) : List MainEv × StartResult :=
  if versionFlag then ([.evVersionPrint], .versionExit)
  else
    let st1 := match releaseIP cfg st with
      | .ok (_, s) => s
      | .error _ => st
    if !tlsOk then ([.evReleaseAttempt, .evTlsSetup], .fatalStartup)
    else if !clientOk then ([.evReleaseAttempt, .evTlsSetup, .evClientConnect], .fatalStartup)
    else if !sessionOk then
      ([.evReleaseAttempt, .evTlsSetup, .evClientConnect, .evSessionOpen], .fatalStartup)
    else
      ([.evReleaseAttempt, .evTlsSetup, .evClientConnect, .evSessionOpen], .enterLoop st1)

/-- Whole-process model: startup followed, when startup reaches the
election loop, by the leadership goroutine run on the given script. -/
def govipRun (versionFlag : Bool) (tlsOk clientOk sessionOk : Bool)
    (cfg : Config) (arpOk : Nat → Bool) (st : OsState) (script : List LoopEv) :
    List MainEv × Option LoopOutcome :=
  match mainStartup versionFlag tlsOk clientOk sessionOk cfg st with
  | (tr, .enterLoop st1) => (tr, some (loopRun cfg arpOk 0 st1 0 false script))
  | (tr, _) => (tr, none)

/-- The address is observably present: `hasIP` succeeds and reports
`true`. -/
def present (cfg : Config) (st : OsState) : Prop :=
  ∃ a l, hasIP cfg st = .ok (true, a, l, st)

/-- The release-obligation bookkeeping the spec claims for the
leadership goroutine: while running, the number of pending deferred
releases is one when the task has acquired the address and zero
otherwise; on a non-fatal return, the number of `releaseIP` calls made
by the defers is likewise one or zero.  A fatal exit runs no defers. -/
def obligationOk : LoopOutcome → Prop
  | .running _ d a => d = (if a then 1 else 0)
  | .done fatal c _ _ a => fatal = true ∨ c = (if a then 1 else 0)

/-- Coarse classification of how startup ended, used to state that the
startup control decision does not depend on the discarded outcome of
the startup `releaseIP()`. -/
def startTag : StartResult → Nat
  | .versionExit => 0
  | .fatalStartup => 1
  | .enterLoop _ => 2

/-- Default configuration of the program (`-vip 192.168.0.254/32`,
`-vif eth0`), used for concrete evaluations. -/
def cfg0 : Config := ⟨"192.168.0.254/32", "eth0"⟩

/-- The parsed form of the default VIP. -/
def addr0 : Addr := ⟨192, 168, 0, 254, 32⟩

/-- The handle of the default interface. -/
def link0 : Link := ⟨"eth0"⟩

/-- A host whose `eth0` holds no addresses and where no syscall fails. -/
def stEmpty : OsState := ⟨[("eth0", [])], false, false, false⟩

/-- A host whose `eth0` holds the default VIP and where no syscall
fails. -/
def stHeld : OsState := ⟨[("eth0", [addr0])], false, false, false⟩

section Lemmas

variable {cfg : Config} {st st' : OsState} {a : Addr} {l : Link} {b : Bool}

theorem any_fst_map_update (n n' : String) (as : List Addr) :
    ∀ ls : List (String × List Addr),
      (ls.map (fun p => if p.1 = n then (p.1, as) else p)).any (fun p => p.1 = n') =
        ls.any (fun p => p.1 = n') := by
  intro ls
  induction ls with
  | nil => rfl
  | cons p ls ih =>
    by_cases h : p.1 = n <;> simp [h, ih]

theorem find?_fst_map_update_self (n : String) (as : List Addr) :
    ∀ ls : List (String × List Addr),
      ls.any (fun p => p.1 = n) = true →
      (ls.map (fun p => if p.1 = n then (p.1, as) else p)).find? (fun p => p.1 = n) =
        some (n, as) := by
  intro ls
  induction ls with
  | nil => simp
  | cons p ls ih =>
    intro hany
    by_cases h : p.1 = n
    · simp [List.find?, h]
    · simp only [List.any_cons, decide_eq_true_eq, h, false_or] at hany
      simp [List.find?, h, ih hany]

theorem linkByName_setLinkAddrs (n : String) (as : List Addr) :
    linkByName (setLinkAddrs st l as) n = linkByName st n := by
  unfold linkByName setLinkAddrs
  rw [any_fst_map_update]

theorem linkAddrs_setLinkAddrs_self (as : List Addr)
    (h : linkByName st l.name = some l) :
    linkAddrs (setLinkAddrs st l as) l = as := by
  have hany : st.links.any (fun p => p.1 = l.name) = true := by
    by_contra hc
    simp [linkByName, hc] at h
  simp [linkAddrs, setLinkAddrs, find?_fst_map_update_self l.name as st.links hany]

@[simp] theorem setLinkAddrs_listFail (as : List Addr) :
    (setLinkAddrs st l as).listFail = st.listFail := rfl

@[simp] theorem setLinkAddrs_addFail (as : List Addr) :
    (setLinkAddrs st l as).addFail = st.addFail := rfl

@[simp] theorem setLinkAddrs_delFail (as : List Addr) :
    (setLinkAddrs st l as).delFail = st.delFail := rfl

theorem linkByName_ok {n : String} (h : linkByName st n = some l) : l.name = n := by
  unfold linkByName at h
  by_cases hc : st.links.any (fun p => p.1 = n) <;> simp [hc] at h
  exact (congrArg Link.name h).symm

theorem hasIP_eq (cfg : Config) (st : OsState) :
    hasIP cfg st =
      (match parseAddr cfg.vip, linkByName st cfg.vif with
       | none, _ => .error .parseErr
       | some _, none => .error .linkNotFound
       | some va, some vl =>
         if st.listFail then .error .listErr
         else .ok ((linkAddrs st vl).any (fun x => va = x), va, vl, st)) := by
  unfold hasIP addrList
  cases parseAddr cfg.vip with
  | none => rfl
  | some va =>
    cases linkByName st cfg.vif with
    | none => rfl
    | some vl =>
      cases hf : st.listFail with
      | true => simp [hf]
      | false =>
        simp only [hf, Bool.false_eq_true, if_false]
        cases hm : (linkAddrs st vl).any (fun x => va = x) with
        | true => simp [hm]
        | false => simp [hm]

theorem hasIP_ok (h : hasIP cfg st = .ok (b, a, l, st')) :
    st' = st ∧ parseAddr cfg.vip = some a ∧ linkByName st cfg.vif = some l ∧
      st.listFail = false ∧ b = (linkAddrs st l).any (fun x => a = x) := by
  rw [hasIP_eq] at h
  cases hp : parseAddr cfg.vip with
  | none => rw [hp] at h; exact absurd h (by simp)
  | some va =>
    rw [hp] at h
    cases hl : linkByName st cfg.vif with
    | none => rw [hl] at h; exact absurd h (by simp)
    | some vl =>
      rw [hl] at h
      cases hf : st.listFail with
      | true => rw [hf] at h; exact absurd h (by simp)
      | false =>
        rw [hf] at h
        simp only [Bool.false_eq_true, if_false, Except.ok.injEq, Prod.mk.injEq] at h
        obtain ⟨hb, ha, hl', hs⟩ := h
        subst ha hl' hs
        exact ⟨rfl, rfl, rfl, rfl, hb.symm⟩

theorem hasIP_intro (hp : parseAddr cfg.vip = some a)
    (hl : linkByName st cfg.vif = some l) (hf : st.listFail = false) :
    hasIP cfg st = .ok ((linkAddrs st l).any (fun x => a = x), a, l, st) := by
  rw [hasIP_eq, hp, hl]
  simp [hf]

theorem hasIP_state (h : hasIP cfg st = .ok (b, a, l, st')) : st' = st :=
  (hasIP_ok h).1

theorem any_eq_filter_ne (x : Addr) (xs : List Addr) :
    (xs.filter (fun y => y ≠ x)).any (fun y => x = y) = false := by
  rw [Bool.eq_false_iff]
  intro hc
  obtain ⟨y, hy, hxy⟩ := List.any_eq_true.mp hc
  rw [List.mem_filter] at hy
  exact (of_decide_eq_true hy.2) (of_decide_eq_true hxy).symm

theorem ensureIP_of_present {arp : Nat → Bool} {t : Nat}
    (h : hasIP cfg st = .ok (true, a, l, st)) :
    ensureIP cfg arp t st = .ok (false, [], st) := by
  unfold ensureIP
  simp [h]

theorem ensureIP_of_absent {arp : Nat → Bool} {t : Nat}
    (h : hasIP cfg st = .ok (false, a, l, st)) (hadd : st.addFail = false) :
    ensureIP cfg arp t st =
      .ok (true, (List.range 5).map (fun i => ⟨t + i, arp i⟩),
        setLinkAddrs st l (a :: linkAddrs st l)) := by
  unfold ensureIP addrAdd
  simp [h, hadd]

theorem ensureIP_ok_noop {arp : Nat → Bool} {t : Nat} {sends : List ArpSend}
    (h : ensureIP cfg arp t st = .ok (false, sends, st')) :
    st' = st ∧ sends = [] ∧ ∃ a l, hasIP cfg st = .ok (true, a, l, st) := by
  unfold ensureIP at h
  cases hh : hasIP cfg st with
  | error e => rw [hh] at h; exact absurd h (by simp)
  | ok r =>
    obtain ⟨set, va, vl, st1⟩ := r
    have hst1 : st1 = st := hasIP_state hh
    subst hst1
    rw [hh] at h
    cases set with
    | true =>
      simp only [if_true] at h
      simp only [Except.ok.injEq, Prod.mk.injEq] at h
      obtain ⟨-, hsends, hst⟩ := h
      exact ⟨hst.symm, hsends.symm, va, vl, rfl⟩
    | false =>
      unfold addrAdd at h
      cases hf : st1.addFail with
      | true => simp [hf] at h
      | false => simp [hf] at h

theorem ensureIP_ok_fresh {arp : Nat → Bool} {t : Nat} {sends : List ArpSend}
    (h : ensureIP cfg arp t st = .ok (true, sends, st')) :
    ∃ a l, hasIP cfg st = .ok (false, a, l, st) ∧ st.addFail = false ∧
      st' = setLinkAddrs st l (a :: linkAddrs st l) ∧
      sends = (List.range 5).map (fun i => ⟨t + i, arp i⟩) := by
  unfold ensureIP at h
  cases hh : hasIP cfg st with
  | error e => rw [hh] at h; exact absurd h (by simp)
  | ok r =>
    obtain ⟨set, va, vl, st1⟩ := r
    have hst1 : st1 = st := hasIP_state hh
    subst hst1
    rw [hh] at h
    cases set with
    | true => simp at h
    | false =>
      unfold addrAdd at h
      cases hf : st1.addFail with
      | true => simp [hf] at h
      | false =>
        simp only [hf] at h
        simp at h
        obtain ⟨hsends, hst⟩ := h
        exact ⟨va, vl, rfl, rfl, hst.symm, hsends.symm⟩

theorem hasIP_after_add (h : hasIP cfg st = .ok (false, a, l, st)) :
    hasIP cfg (setLinkAddrs st l (a :: linkAddrs st l)) =
      .ok (true, a, l, setLinkAddrs st l (a :: linkAddrs st l)) := by
  obtain ⟨-, hp, hl, hf, -⟩ := hasIP_ok h
  have hname : l.name = cfg.vif := linkByName_ok hl
  have hl2 : linkByName (setLinkAddrs st l (a :: linkAddrs st l)) cfg.vif = some l := by
    rw [linkByName_setLinkAddrs]; exact hl
  have hf2 : (setLinkAddrs st l (a :: linkAddrs st l)).listFail = false := by
    rw [setLinkAddrs_listFail]; exact hf
  have hmain := hasIP_intro hp hl2 hf2
  rw [linkAddrs_setLinkAddrs_self _ (by rw [hname]; exact hl)] at hmain
  simpa using hmain

theorem ensureIP_ok_present {arp : Nat → Bool} {t : Nat} {res : Bool} {sends : List ArpSend}
    (h : ensureIP cfg arp t st = .ok (res, sends, st')) :
    ∃ a l, hasIP cfg st' = .ok (true, a, l, st') := by
  cases res with
  | false =>
    obtain ⟨hst, -, a, l, hh⟩ := ensureIP_ok_noop h
    exact ⟨a, l, hst ▸ hh⟩
  | true =>
    obtain ⟨a, l, hh, -, hst, -⟩ := ensureIP_ok_fresh h
    exact ⟨a, l, hst ▸ hasIP_after_add hh⟩

theorem releaseIP_of_absent (h : hasIP cfg st = .ok (false, a, l, st)) :
    releaseIP cfg st = .ok (false, st) := by
  unfold releaseIP
  simp [h]

theorem releaseIP_of_present (h : hasIP cfg st = .ok (true, a, l, st))
    (hd : st.delFail = false) :
    releaseIP cfg st =
      .ok (true, setLinkAddrs st l ((linkAddrs st l).filter (fun x => x ≠ a))) := by
  unfold releaseIP addrDel
  simp [h, hd]

theorem hasIP_after_del (h : hasIP cfg st = .ok (true, a, l, st)) :
    hasIP cfg (setLinkAddrs st l ((linkAddrs st l).filter (fun x => x ≠ a))) =
      .ok (false, a, l, setLinkAddrs st l ((linkAddrs st l).filter (fun x => x ≠ a))) := by
  obtain ⟨-, hp, hl, hf, -⟩ := hasIP_ok h
  have hname : l.name = cfg.vif := linkByName_ok hl
  have hl2 : linkByName (setLinkAddrs st l ((linkAddrs st l).filter (fun x => x ≠ a)))
      cfg.vif = some l := by
    rw [linkByName_setLinkAddrs]; exact hl
  have hf2 : (setLinkAddrs st l ((linkAddrs st l).filter (fun x => x ≠ a))).listFail = false := by
    rw [setLinkAddrs_listFail]; exact hf
  have hmain := hasIP_intro hp hl2 hf2
  rw [linkAddrs_setLinkAddrs_self _ (by rw [hname]; exact hl)] at hmain
  rw [any_eq_filter_ne] at hmain
  exact hmain

theorem hasIP_parse_none (hp : parseAddr cfg.vip = none) :
    hasIP cfg st = .error .parseErr := by
  rw [hasIP_eq]
  simp [hp]

theorem hasIP_link_none (hp : parseAddr cfg.vip = some a)
    (hl : linkByName st cfg.vif = none) : hasIP cfg st = .error .linkNotFound := by
  rw [hasIP_eq]
  simp [hp, hl]

theorem hasIP_list_fail (hp : parseAddr cfg.vip = some a)
    (hl : linkByName st cfg.vif = some l) (hf : st.listFail = true) :
    hasIP cfg st = .error .listErr := by
  rw [hasIP_eq]
  simp [hp, hl, hf]

theorem ensureIP_of_hasIP_error {arp : Nat → Bool} {t : Nat} {e : NetErr}
    (h : hasIP cfg st = .error e) : ensureIP cfg arp t st = .error e := by
  unfold ensureIP
  simp [h]

theorem releaseIP_of_hasIP_error {e : NetErr}
    (h : hasIP cfg st = .error e) : releaseIP cfg st = .error e := by
  unfold releaseIP
  simp [h]

theorem releaseIP_of_present_delFail (h : hasIP cfg st = .ok (true, a, l, st))
    (hd : st.delFail = true) : releaseIP cfg st = .error .delErr := by
  unfold releaseIP addrDel
  simp [h, hd]

theorem releaseIP_ok_after (h : releaseIP cfg st = .ok (b, st')) :
    ∃ a l, hasIP cfg st' = .ok (false, a, l, st') := by
  cases hh : hasIP cfg st with
  | error e => rw [releaseIP_of_hasIP_error hh] at h; exact absurd h (by simp)
  | ok r =>
    obtain ⟨set, va, vl, st1⟩ := r
    have hst1 : st1 = st := hasIP_state hh
    subst hst1
    cases set with
    | false =>
      rw [releaseIP_of_absent hh] at h
      injection h with h1
      injection h1 with hb hst
      subst hst
      exact ⟨va, vl, hh⟩
    | true =>
      cases hf : st1.delFail with
      | true =>
        rw [releaseIP_of_present_delFail hh hf] at h
        exact absurd h (by simp)
      | false =>
        rw [releaseIP_of_present hh hf] at h
        injection h with h1
        injection h1 with hb hst
        subst hst
        exact ⟨va, vl, hasIP_after_del hh⟩

theorem runDefers_count (cfg : Config) : ∀ (n : Nat) (st : OsState),
    (runDefers cfg st n).1 = n := by
  intro n
  induction n with
  | zero => intro st; rfl
  | succ m ih =>
    intro st
    unfold runDefers
    cases hr : releaseIP cfg st with
    | ok p => simp [hr, ih]
    | error e => simp [hr, ih]

theorem arpSend_times (t : Nat) (f : Nat → Bool) :
    ((List.range 5).map (fun i => (⟨t + i, f i⟩ : ArpSend))).map ArpSend.time =
      [t, t + 1, t + 2, t + 3, t + 4] := by
  have h5 : List.range 5 = [0, 1, 2, 3, 4] := by decide
  rw [h5]
  simp

theorem loopRun_obligation (cfg : Config) (arp : Nat → Bool) :
    ∀ (script : List LoopEv) (t : Nat) (st : OsState) (defers : Nat) (acquired : Bool),
      defers = (if acquired then 1 else 0) →
      (acquired = true → ∃ a l, hasIP cfg st = .ok (true, a, l, st)) →
      obligationOk (loopRun cfg arp t st defers acquired script) := by
  intro script
  induction script with
  | nil =>
    intro t st defers acquired hd hp
    simpa [loopRun, obligationOk] using hd
  | cons ev rest ih =>
    intro t st defers acquired hd hp
    cases ev with
    | quitClosed =>
      rcases hrd : runDefers cfg st defers with ⟨c, st2⟩
      have hc : c = defers := by
        have hcount := runDefers_count cfg defers st
        rw [hrd] at hcount
        exact hcount
      simp only [loopRun, hrd]
      exact Or.inr (hc.trans hd)
    | timerTick cres =>
      cases cres with
      | canceled =>
        rcases hrd : runDefers cfg st defers with ⟨c, st2⟩
        have hc : c = defers := by
          have hcount := runDefers_count cfg defers st
          rw [hrd] at hcount
          exact hcount
        simp only [loopRun, hrd]
        exact Or.inr (hc.trans hd)
      | failed =>
        simp only [loopRun]
        exact Or.inl rfl
      | won =>
        cases he : ensureIP cfg arp (t + 5) st with
        | error e =>
          simp only [loopRun, he]
          exact Or.inl rfl
        | ok r =>
          obtain ⟨res, sends, st'⟩ := r
          cases res with
          | false =>
            obtain ⟨hst, -, -⟩ := ensureIP_ok_noop he
            subst hst
            simp only [loopRun, he]
            exact ih (t + 5) st' defers acquired hd hp
          | true =>
            cases acquired with
            | true =>
              obtain ⟨a1, l1, habs, -⟩ := ensureIP_ok_fresh he
              obtain ⟨a2, l2, hpres⟩ := hp rfl
              rw [habs] at hpres
              simp at hpres
            | false =>
              simp only [loopRun, he]
              exact ih (t + 10) st' (defers + 1) true (by simp [hd])
                (fun _ => ensureIP_ok_present he)

end Lemmas

/-- C1: starting the leadership goroutine with no pending obligation and
the address not yet acquired, over every event script the number of
pending `defer releaseIP()` obligations is one when some `ensureIP`
freshly added the address and zero otherwise (repeated leadership
confirmations that find the address already present schedule nothing);
hence on a non-fatal return exactly one `releaseIP` call runs when the
task acquired the address and zero calls run when it never did. -/
theorem leadership_release_obligation (cfg : Config) (arp : Nat → Bool)
    (t : Nat) (st : OsState) (script : List LoopEv) :
    obligationOk (loopRun cfg arp t st 0 false script) :=
  loopRun_obligation cfg arp script t st 0 false rfl
    (fun h => absurd h Bool.false_ne_true)

/-- C3: `ensureIP` is idempotent — on any state where the address is
already observably present it performs no mutation and returns the
no-op outcome with no error; in particular, immediately after any
successful `ensureIP` a second call (with any ARP oracle and clock) is
such a no-op. -/
theorem ensure_idempotent (cfg : Config) (arp arp2 : Nat → Bool)
    (t t2 : Nat) (st : OsState) :
    (∀ a l, hasIP cfg st = .ok (true, a, l, st) →
      ensureIP cfg arp t st = .ok (false, [], st)) ∧
    (∀ res sends st', ensureIP cfg arp t st = .ok (res, sends, st') →
      ensureIP cfg arp2 t2 st' = .ok (false, [], st')) := by
  constructor
  · intro a l h
    exact ensureIP_of_present h
  · intro res sends st' h
    obtain ⟨a, l, hpres⟩ := ensureIP_ok_present h
    exact ensureIP_of_present hpres

/-- C3 witness: on a host already holding the VIP, `ensureIP` is a
no-op with no error. -/
theorem ensure_idempotent_witness :
    ensureIP cfg0 (fun _ => true) 0 stHeld = .ok (false, [], stHeld) :=
  (ensure_idempotent cfg0 (fun _ => true) (fun _ => true) 0 0 stHeld).1
    addr0 link0 (by decide)

/-- C4: `releaseIP` is idempotent — on any state where the address is
absent it performs no removal and returns the no-op outcome with no
error; when present (and removal succeeds) it removes the address and
returns the released outcome; and immediately after any successful
`releaseIP` a second call is such a no-op. -/
theorem release_idempotent (cfg : Config) (st : OsState) :
    (∀ a l, hasIP cfg st = .ok (false, a, l, st) →
      releaseIP cfg st = .ok (false, st)) ∧
    (∀ a l, hasIP cfg st = .ok (true, a, l, st) → st.delFail = false →
      releaseIP cfg st =
        .ok (true, setLinkAddrs st l ((linkAddrs st l).filter (fun x => x ≠ a)))) ∧
    (∀ b st', releaseIP cfg st = .ok (b, st') → releaseIP cfg st' = .ok (false, st')) := by
  refine ⟨fun a l h => releaseIP_of_absent h,
    fun a l h hd => releaseIP_of_present h hd, ?_⟩
  intro b st' h
  obtain ⟨a, l, habs⟩ := releaseIP_ok_after h
  exact releaseIP_of_absent habs

/-- C4 witness: after releasing the held VIP (reaching the empty host
state), a second `releaseIP` is a no-op with no error. -/
theorem release_idempotent_witness :
    releaseIP cfg0 stEmpty = .ok (false, stEmpty) :=
  (release_idempotent cfg0 stHeld).2.2 true stEmpty (by decide)

/-- C7: inside the leadership loop a campaign resolving as cancellation
is not an error — the goroutine returns, running its `d` pending
release obligations and then signalling completion with exit value 0 —
while any other campaign error kills the process at once: no release
obligation runs and no completion value is ever sent. -/
theorem campaign_resolution (cfg : Config) (arp : Nat → Bool) (t : Nat)
    (st : OsState) (d : Nat) (acq : Bool) (rest : List LoopEv) :
    loopRun cfg arp t st d acq (.timerTick .canceled :: rest) =
      .done false (runDefers cfg st d).1 (some 0) (runDefers cfg st d).2 acq ∧
    (runDefers cfg st d).1 = d ∧
    loopRun cfg arp t st d acq (.timerTick .failed :: rest) =
      .done true 0 none st acq := by
  refine ⟨?_, runDefers_count cfg d st, ?_⟩
  · rcases hrd : runDefers cfg st d with ⟨c, st2⟩
    simp [loopRun, hrd]
  · simp [loopRun]

/-- C10: `hasIP` is read-only — whenever it succeeds, the OS state it
hands back is exactly the state it was given (and its error outcomes
carry no state change either, every primitive it uses being a read). -/
theorem observe_readonly (cfg : Config) (st : OsState) :
    ∀ b a l st', hasIP cfg st = .ok (b, a, l, st') → st' = st := by
  intro b a l st' h
  exact hasIP_state h

/-- C10 witness: observing the held VIP returns the input state. -/
theorem observe_readonly_witness :
    hasIP cfg0 stHeld = .ok (true, addr0, link0, stHeld) ∧ stHeld = stHeld :=
  ⟨by decide, observe_readonly cfg0 stHeld true addr0 link0 stHeld (by decide)⟩

/-- C5: `hasIP` fails exactly when the VIP string does not parse as a
CIDR, or the interface cannot be resolved, or the address enumeration
fails; on success it returns the parsed address and resolved link, and
its presence bit is true exactly when that address is a member of the
interface's current address list. -/
theorem observe_spec (cfg : Config) (st : OsState) :
    ((∃ e, hasIP cfg st = .error e) ↔
      (parseAddr cfg.vip = none ∨ linkByName st cfg.vif = none ∨ st.listFail = true)) ∧
    (∀ b a l st', hasIP cfg st = .ok (b, a, l, st') →
      parseAddr cfg.vip = some a ∧ linkByName st cfg.vif = some l ∧
        (b = true ↔ a ∈ linkAddrs st l)) := by
  constructor
  · constructor
    · rintro ⟨e, he⟩
      by_contra hc
      push_neg at hc
      obtain ⟨h1, h2, h3⟩ := hc
      obtain ⟨a, ha⟩ := Option.ne_none_iff_exists'.mp h1
      obtain ⟨l, hl⟩ := Option.ne_none_iff_exists'.mp h2
      have hf : st.listFail = false := (Bool.not_eq_true _).mp h3
      rw [hasIP_intro ha hl hf] at he
      exact absurd he (by simp)
    · intro h
      rcases h with hp | hl | hf
      · exact ⟨.parseErr, hasIP_parse_none hp⟩
      · cases hp : parseAddr cfg.vip with
        | none => exact ⟨.parseErr, hasIP_parse_none hp⟩
        | some a => exact ⟨.linkNotFound, hasIP_link_none hp hl⟩
      · cases hp : parseAddr cfg.vip with
        | none => exact ⟨.parseErr, hasIP_parse_none hp⟩
        | some a =>
          cases hl : linkByName st cfg.vif with
          | none => exact ⟨.linkNotFound, hasIP_link_none hp hl⟩
          | some l => exact ⟨.listErr, hasIP_list_fail hp hl hf⟩
  · intro b a l st' h
    obtain ⟨-, hp, hl, -, hb⟩ := hasIP_ok h
    refine ⟨hp, hl, ?_⟩
    rw [hb]
    constructor
    · intro hany
      obtain ⟨x, hx, hax⟩ := List.any_eq_true.mp hany
      have hax2 : a = x := of_decide_eq_true hax
      rwa [hax2]
    · intro hmem
      exact List.any_eq_true.mpr ⟨a, hmem, by simp⟩

/-- C5 witness: on the held host, `hasIP` succeeds and its conclusions
evaluate at the default configuration. -/
theorem observe_spec_witness :
    parseAddr cfg0.vip = some addr0 ∧ linkByName stHeld cfg0.vif = some link0 ∧
      (true = true ↔ addr0 ∈ linkAddrs stHeld link0) :=
  (observe_spec cfg0 stHeld).2 true addr0 link0 stHeld (by decide)

/-- C6: a fresh absent-to-present `ensureIP` transition performs exactly
five announcement transmissions at one-second spacing, its result does
not depend on the transmission outcomes (failures are not escalated:
another ARP oracle yields the same success, state and send times), and
an already-present no-op call performs zero transmissions. -/
theorem announcement_spec (cfg : Config) (arp arp2 : Nat → Bool)
    (t : Nat) (st : OsState) :
    (∀ a l, hasIP cfg st = .ok (false, a, l, st) → st.addFail = false →
      ∀ res sends st', ensureIP cfg arp t st = .ok (res, sends, st') →
        res = true ∧ sends.map ArpSend.time = [t, t + 1, t + 2, t + 3, t + 4] ∧
        ∃ sends2, ensureIP cfg arp2 t st = .ok (res, sends2, st') ∧
          sends2.map ArpSend.time = sends.map ArpSend.time) ∧
    (∀ a l, hasIP cfg st = .ok (true, a, l, st) →
      ensureIP cfg arp t st = .ok (false, [], st)) := by
  constructor
  · intro a l h hadd res sends st' hens
    rw [ensureIP_of_absent h hadd] at hens
    injection hens with h1
    injection h1 with hres h2
    injection h2 with hsends hst
    subst hres hsends hst
    refine ⟨rfl, arpSend_times t arp, ?_⟩
    refine ⟨(List.range 5).map (fun i => ⟨t + i, arp2 i⟩), ensureIP_of_absent h hadd, ?_⟩
    rw [arpSend_times t arp, arpSend_times t arp2]
  · intro a l h
    exact ensureIP_of_present h

/-- C6 witness: on the empty host a fresh `ensureIP` with an
all-failing ARP oracle still succeeds with sends at seconds 7 through
11, and the all-succeeding oracle gives the same times and state. -/
theorem announcement_spec_witness :
    (true : Bool) = true ∧
    ((List.range 5).map (fun i => (⟨7 + i, false⟩ : ArpSend))).map ArpSend.time =
      [7, 7 + 1, 7 + 2, 7 + 3, 7 + 4] ∧
    ∃ sends2, ensureIP cfg0 (fun _ => true) 7 stEmpty = .ok (true, sends2, stHeld) ∧
      sends2.map ArpSend.time =
        ((List.range 5).map (fun i => (⟨7 + i, false⟩ : ArpSend))).map ArpSend.time :=
  (announcement_spec cfg0 (fun _ => false) (fun _ => true) 7 stEmpty).1
    addr0 link0 (by decide) (by decide) true
    ((List.range 5).map (fun i => ⟨7 + i, false⟩)) stHeld (by decide)

/-- C2 counterexample: running with the VIP string "not-a-cidr" (which
does not parse) and working TLS/client/session setup, the process does
not exit at startup — the startup `releaseIP()` error is discarded —
and its startup trace contains the etcd client connection, so it does
contact the coordination service, contrary to the claim. -/
theorem invalid_vip_counterexample :
    parseAddr "not-a-cidr" = none ∧
    (mainStartup false true true true ⟨"not-a-cidr", "eth0"⟩ stEmpty).2 =
      .enterLoop stEmpty ∧
    .evClientConnect ∈ (mainStartup false true true true ⟨"not-a-cidr", "eth0"⟩ stEmpty).1 := by
  refine ⟨by decide, ?_, ?_⟩ <;> decide

/-- C2 (amended): an invalid VIP string is not detected at startup —
the startup release error is discarded and, with working credentials,
the process contacts the coordination service and enters the election
loop; the configuration error only surfaces as a fatal abort when
`ensureIP` runs after the first campaign win (with no completion signal
and no release obligation run). -/
theorem invalid_vip_amended (cfg : Config) (st : OsState) (arp : Nat → Bool)
    (t d : Nat) (acq : Bool) (rest : List LoopEv)
    (hp : parseAddr cfg.vip = none) :
    (mainStartup false true true true cfg st).2 = .enterLoop st ∧
    .evClientConnect ∈ (mainStartup false true true true cfg st).1 ∧
    loopRun cfg arp t st d acq (.timerTick .won :: rest) = .done true 0 none st acq := by
  have hrel : releaseIP cfg st = .error .parseErr :=
    releaseIP_of_hasIP_error (hasIP_parse_none hp)
  have hens : ensureIP cfg arp (t + 5) st = .error .parseErr :=
    ensureIP_of_hasIP_error (hasIP_parse_none hp)
  refine ⟨?_, ?_, ?_⟩
  · unfold mainStartup
    simp [hrel]
  · unfold mainStartup
    simp [hrel]
  · simp [loopRun, hens]

/-- C2 amended witness: concrete run with VIP "not-a-cidr". -/
theorem invalid_vip_amended_witness :
    (mainStartup false true true true ⟨"not-a-cidr", "eth0"⟩ stEmpty).2 =
      .enterLoop stEmpty ∧
    .evClientConnect ∈ (mainStartup false true true true ⟨"not-a-cidr", "eth0"⟩ stEmpty).1 ∧
    loopRun ⟨"not-a-cidr", "eth0"⟩ (fun _ => true) 0 stEmpty 0 false
      [.timerTick .won] = .done true 0 none stEmpty false :=
  invalid_vip_amended ⟨"not-a-cidr", "eth0"⟩ stEmpty (fun _ => true) 0 0 false []
    (by decide)

/-- C8: the first termination request makes the signal handler fire
`cancel()` and `close(quit)` exactly once — further requests have no
additional effect — and once the quit channel is readable the
leadership goroutine returns and sends 0, so `main` unblocks and the
process exits with code 0. -/
theorem shutdown_coordinator_once (n : Nat) (hn : 1 ≤ n) :
    handleSignals n = ⟨1, 1, true⟩ ∧
    (∀ (cfg : Config) (arp : Nat → Bool) (t : Nat) (st : OsState) (d : Nat)
      (acq : Bool) (rest : List LoopEv),
      mainExitCode (loopRun cfg arp t st d acq (.quitClosed :: rest)) = some 0) := by
  constructor
  · induction n with
    | zero => exact absurd hn (by decide)
    | succ m ih =>
      cases m with
      | zero => rfl
      | succ k =>
        have h := ih (by omega)
        show handleSignal (handleSignals (k + 1)) = _
        rw [h]
        rfl
  · intro cfg arp t st d acq rest
    rcases hrd : runDefers cfg st d with ⟨c, st2⟩
    simp [loopRun, hrd, mainExitCode]

/-- C8 witness: two termination requests still produce a single
`cancel()`/`close(quit)` pair, and a quit-unblocked loop exits 0. -/
theorem shutdown_coordinator_once_witness :
    handleSignals 2 = ⟨1, 1, true⟩ ∧
      mainExitCode (loopRun cfg0 (fun _ => true) 0 stEmpty 0 false [.quitClosed]) = some 0 :=
  ⟨(shutdown_coordinator_once 2 (by decide)).1,
   (shutdown_coordinator_once 2 (by decide)).2 cfg0 (fun _ => true) 0 stEmpty 0 false []⟩

/-- C9: every non-version startup attempts exactly one `releaseIP`, as
its very first action and hence before any contact with the
coordination service, and discards its outcome: the startup event
trace and the startup control decision are identical for any two
configurations and host states, i.e. independent of whether that
release succeeds or fails. -/
theorem startup_release_fire_and_forget (tls cli ses : Bool)
    (cfg cfg' : Config) (st st' : OsState) :
    (mainStartup false tls cli ses cfg st).1 = (mainStartup false tls cli ses cfg' st').1 ∧
    (mainStartup false tls cli ses cfg st).1.head? = some .evReleaseAttempt ∧
    (mainStartup false tls cli ses cfg st).1.count .evReleaseAttempt = 1 ∧
    startTag (mainStartup false tls cli ses cfg st).2 =
      startTag (mainStartup false tls cli ses cfg' st').2 := by
  cases tls <;> cases cli <;> cases ses <;>
    simp [mainStartup, startTag, List.count, List.countP, List.countP.go] <;>
    decide

end Govip
